import Mathlib

/-!
Shallow embedding of `plugins/modules/systemd_networkd.py`: the config
generator (`basic_network_block`, `generate_config`), the directory snapshot
reader (`read_config`) and the reconciliation step of `run_module`
(`to_remove`, `to_write`, content part of `changed`), together with proofs
about them.

Python dictionaries are modelled as association lists (`Dict`) with
insertion-order semantics: inserting an existing key replaces its value in
place, a new key is appended.  Optional module arguments that Ansible fills
with `None` are modelled as `Option` fields.
-/

set_option maxHeartbeats 1000000

namespace SystemdNetworkd

/-- Python `dict` keyed by filename with string contents. -/
abbrev Dict := List (String × String)

/-- Insert into a Python dict: replace the value in place if the key exists,
otherwise append the new binding at the end. -/
def dinsert (d : Dict) (k v : String) : Dict :=
  match d with
  | [] => [(k, v)]
  | kv :: rest => if kv.1 = k then (k, v) :: rest else kv :: dinsert rest k v

/-- `d[k]` as an option (first binding wins; dicts built with `dinsert`
have unique keys). -/
def lookup (d : Dict) (k : String) : Option String :=
  match d with
  | [] => none
  | kv :: rest => if kv.1 = k then some kv.2 else lookup rest k

/-- `list(d.keys())`. -/
def keys (d : Dict) : List String := d.map Prod.fst

/-- Python `k in d`. -/
def containsKey (d : Dict) (k : String) : Bool := (lookup d k).isSome

/-- Python `d1 == d2` on dicts: same key set with the same values
(insertion order is irrelevant). -/
def dictBeq (a b : Dict) : Bool :=
  a.all (fun kv => lookup b kv.1 == some kv.2) &&
  b.all (fun kv => lookup a kv.1 == some kv.2)

/-- The five general network attributes shared by interface and VLAN
descriptors (`address`, `bridge`, `dhcp`, `dns`, `gateway`); unset
arguments are `None` in Python, `none` here. -/
structure NetCfg where
  address : Option String
  bridge : Option String
  dhcp : Option Bool
  dns : Option (List String)
  gateway : Option String
deriving DecidableEq

/-- A VLAN descriptor: `{"id": ..., "name": ..., <NetCfg fields>}`. -/
structure Vlan where
  id : Int
  name : Option String
  cfg : NetCfg
deriving DecidableEq

/-- An interface descriptor:
`{"name": ..., "mac": ..., "type": ..., "vlan": ..., <NetCfg fields>}`.
`type` defaults to `"net"` in the argument spec. -/
structure Network where
  name : String
  mac : Option String
  type : String
  vlan : Option (List Vlan)
  cfg : NetCfg

/-- Python `"{0}".format(x)` on an optional string: `None` renders as the
four characters `None`. -/
def pyFormatOptStr : Option String → String
  | some s => s
  | none => "None"

/-- `basic_network_block`: builds the `[Network]` block from the general
attributes, appending fields in the source's fixed order. -/
def basic_network_block (network : NetCfg) : String :=
  let b := "[Network]\n"
  let b := match network.address with
    | some a => b ++ "Address=" ++ a ++ "\n"
    | none => b
  let b := match network.bridge with
    | some br => b ++ "Bridge=" ++ br ++ "\n"
    | none => b
  let b := match network.dhcp with
    | some _ => b ++ "DHCP=ipv4\n"
    | none => b
  let b := match network.dns with
    | some servers => servers.foldl (fun acc s => acc ++ "DNS=" ++ s ++ "\n") b
    | none => b
  let b := match network.gateway with
    | some g => b ++ "Gateway=" ++ g ++ "\n"
    | none => b
  b

/-- The VLAN's interface name: explicit `name` if given, else
`"{0}.{1}".format(parent_name, id)`. -/
def vlanName (parent : String) (v : Vlan) : String :=
  match v.name with
  | some n => n
  | none => parent ++ "." ++ toString v.id

/-- The inner `for vlan in network["vlan"]` loop of `generate_config`:
threads the accumulated parent network block and the files dict. -/
def processVlans (name : String) (vlans : List Vlan)
    (network_block : String) (files : Dict) : String × Dict :=
  vlans.foldl (fun acc vlan =>
    let vname := vlanName name vlan
    let network_block := acc.1 ++ "VLAN=" ++ vname ++ "\n"
    let files := dinsert acc.2 ("20-" ++ vname ++ ".netdev")
      ("[NetDev]\nName=" ++ vname ++ "\nKind=vlan\n\n[VLAN]\nId=" ++
        toString vlan.id ++ "\n")
    let vnetwork_block :=
      "[Match]\nName=" ++ vname ++ "\n\n" ++ basic_network_block vlan.cfg
    let files := dinsert files ("20-" ++ vname ++ ".network") vnetwork_block
    (network_block, files)) (network_block, files)

/-- One iteration of the `for network in networks` loop of
`generate_config`. -/
def processNetwork (files : Dict) (network : Network) : Dict :=
  let name := network.name
  let files :=
    match network.mac with
    | some mac =>
      let link_match_block :=
        "[Match]\nMACAddress=" ++ mac ++ "\nDriver=!802.1Q*"
      let match_block := "[Match]\nName=" ++ name
      let link_block := "[Link]\nName=" ++ name
      let network_block := basic_network_block network.cfg
      let nf :=
        match network.vlan with
        | some vlans => processVlans name vlans network_block files
        | none => (network_block, files)
      let files := dinsert nf.2 ("10-" ++ name ++ ".link")
        (link_match_block ++ "\n\n" ++ link_block)
      dinsert files ("10-" ++ name ++ ".network")
        (match_block ++ "\n\n" ++ nf.1)
    | none => files
  if network.type = "bridge" then
    let files := dinsert files ("30-" ++ name ++ ".netdev")
      ("[NetDev]\nName=" ++ name ++ "\nKind=bridge\n")
    dinsert files ("30-" ++ name ++ ".network")
      ("[Match]\nName=" ++ name ++ "\n\n[Network]\nAddress=" ++
        pyFormatOptStr network.cfg.address ++ "\n")
  else files

/-- `generate_config`: folds the per-network processing over the input list,
starting from the empty dict. -/
def generate_config (networks : List Network) : Dict :=
  networks.foldl processNetwork []

/-- `os.path.basename`: the part of the path after the last slash
(the whole string when it has no slash). -/
def basename (p : String) : String :=
  String.mk ((p.data.reverse.takeWhile (fun c => c != '/')).reverse)

/-- `read_config`: the target directory is modelled as a list of
`(path, content)` pairs; each file is read whole (`file.read(-1)`), keyed
by its basename.  No transformation of the content happens. -/
def read_config (dir : List (String × String)) : Dict :=
  dir.foldl (fun files f => dinsert files (basename f.1) f.2) []

/-- The result of the reconciliation step of `run_module`: the content part
of `changed`, the write set and the remove set. -/
structure ReconcileResult where
  changed : Bool
  to_write : List String
  to_remove : List String

/-- Reconciliation step of `run_module` (its file-content part):
`changed = config_files != existing_config_files`,
`files_to_remove = set(existing) - set(config)`, and
`files_to_write = {f in config | not (f in existing and config[f] == existing[f])}`. -/
def reconcile (config_files existing_config_files : Dict) : ReconcileResult :=
  { changed := !(dictBeq config_files existing_config_files)
  , to_remove := (keys existing_config_files).filter
      (fun k => !(containsKey config_files k))
  , to_write := (keys config_files).filter
      (fun k => !(containsKey existing_config_files k &&
        (lookup config_files k == lookup existing_config_files k))) }

/-- From `module_args`: the `"mac"` option spec is `{"type": "str"}`; no
`required` key is given, which Ansible treats as not required. -/
structure ArgSpec where
  required : Bool

/-- The argument spec entry for `mac` in `module_args`. -/
def mac_arg_spec : ArgSpec := { required := false }

/-! ### Dictionary lemmas -/

theorem lookup_dinsert_self (d : Dict) (k v : String) :
    lookup (dinsert d k v) k = some v := by
  induction d with
  | nil => simp [dinsert, lookup]
  | cons kv rest ih =>
    by_cases h : kv.1 = k
    · simp [dinsert, h, lookup]
    · simp [dinsert, h, lookup, ih]

theorem lookup_dinsert_ne (d : Dict) (k v k' : String) (h : k' ≠ k) :
    lookup (dinsert d k v) k' = lookup d k' := by
  have hne : ¬(k = k') := fun he => h he.symm
  induction d with
  | nil => simp [dinsert, lookup, hne]
  | cons kv rest ih =>
    by_cases hk : kv.1 = k
    · have hk' : ¬(kv.1 = k') := by rw [hk]; exact hne
      simp only [dinsert, if_pos hk, lookup, if_neg hne, if_neg hk']
    · simp only [dinsert, if_neg hk, lookup, ih]

theorem mem_dinsert (d : Dict) (k v : String) (kv : String × String)
    (h : kv ∈ dinsert d k v) : kv = (k, v) ∨ kv ∈ d := by
  induction d with
  | nil =>
    simp only [dinsert, List.mem_singleton] at h
    exact Or.inl h
  | cons hd rest ih =>
    by_cases hk : hd.1 = k
    · simp only [dinsert, if_pos hk] at h
      rcases List.mem_cons.mp h with h' | h'
      · exact Or.inl h'
      · exact Or.inr (List.mem_cons_of_mem _ h')
    · simp only [dinsert, if_neg hk] at h
      rcases List.mem_cons.mp h with h' | h'
      · exact Or.inr (h' ▸ List.mem_cons_self hd rest)
      · rcases ih h' with h'' | h''
        · exact Or.inl h''
        · exact Or.inr (List.mem_cons_of_mem _ h'')

theorem keys_dinsert_of_containsKey (d : Dict) (k v : String)
    (h : containsKey d k = true) : keys (dinsert d k v) = keys d := by
  induction d with
  | nil => simp [containsKey, lookup] at h
  | cons kv rest ih =>
    by_cases hk : kv.1 = k
    · simp [dinsert, hk, keys]
    · simp only [containsKey, lookup, if_neg hk] at h
      simp only [dinsert, if_neg hk, keys, List.map_cons]
      rw [show (dinsert rest k v).map Prod.fst = keys (dinsert rest k v) from rfl,
        ih h]
      rfl

theorem keys_dinsert_of_not_containsKey (d : Dict) (k v : String)
    (h : containsKey d k = false) : keys (dinsert d k v) = keys d ++ [k] := by
  induction d with
  | nil => simp [dinsert, keys]
  | cons kv rest ih =>
    by_cases hk : kv.1 = k
    · simp [containsKey, lookup, hk] at h
    · simp only [containsKey, lookup, if_neg hk] at h
      simp only [dinsert, if_neg hk, keys, List.map_cons]
      rw [show (dinsert rest k v).map Prod.fst = keys (dinsert rest k v) from rfl,
        ih h]
      rfl

theorem mem_keys_iff_containsKey (d : Dict) (k : String) :
    k ∈ keys d ↔ containsKey d k = true := by
  induction d with
  | nil => simp [keys, containsKey, lookup]
  | cons kv rest ih =>
    simp only [keys, List.map_cons, List.mem_cons, containsKey, lookup]
    by_cases hk : kv.1 = k
    · simp [hk]
    · simp only [if_neg hk]
      constructor
      · intro hor
        rcases hor with h' | h'
        · exact absurd h'.symm hk
        · exact ih.mp (by simpa [keys] using h')
      · intro hs
        exact Or.inr (by simpa [keys] using ih.mpr hs)

theorem nodup_keys_dinsert (d : Dict) (k v : String)
    (h : (keys d).Nodup) : (keys (dinsert d k v)).Nodup := by
  cases hc : containsKey d k with
  | true => rw [keys_dinsert_of_containsKey d k v hc]; exact h
  | false =>
    rw [keys_dinsert_of_not_containsKey d k v hc]
    rw [List.nodup_append]
    refine ⟨h, List.nodup_singleton k, ?_⟩
    intro a ha hb
    simp at hb
    subst hb
    rw [mem_keys_iff_containsKey] at ha
    rw [hc] at ha
    exact Bool.noConfusion ha

theorem lookup_of_mem_nodup (d : Dict) (k v : String)
    (hnd : (keys d).Nodup) (h : (k, v) ∈ d) : lookup d k = some v := by
  induction d with
  | nil => simp at h
  | cons kv rest ih =>
    have hpair : kv.1 ∉ keys rest ∧ (keys rest).Nodup := List.nodup_cons.mp hnd
    rcases List.mem_cons.mp h with h' | h'
    · rw [← h']
      simp [lookup]
    · have hk : kv.1 ≠ k := by
        intro he
        exact hpair.1 (he ▸ List.mem_map_of_mem Prod.fst h')
      have : (keys rest).Nodup := by simpa [keys] using hpair.2
      simp [lookup, hk, ih this h']

theorem mem_of_lookup_eq_some (d : Dict) (k v : String)
    (h : lookup d k = some v) : (k, v) ∈ d := by
  induction d with
  | nil => simp [lookup] at h
  | cons kv rest ih =>
    by_cases hk : kv.1 = k
    · rw [lookup, if_pos hk] at h
      have : kv = (k, v) := by
        cases kv
        simp only [Option.some.injEq] at h
        simp_all
      exact this ▸ List.mem_cons_self kv rest
    · rw [lookup, if_neg hk] at h
      exact List.mem_cons_of_mem _ (ih h)

/-! ### String inequality helpers for generated filenames -/

theorem str_append_left_ne (a x y : String) (h : x ≠ y) : a ++ x ≠ a ++ y := by
  intro he
  apply h
  have hd := congrArg String.data he
  rw [String.data_append, String.data_append] at hd
  exact String.ext (List.append_cancel_left hd)

theorem str_mid_ne (p a b x : String) (h : a ≠ b) : p ++ a ++ x ≠ p ++ b ++ x := by
  intro he
  apply h
  have hd := congrArg String.data he
  simp only [String.data_append] at hd
  exact String.ext (List.append_cancel_left (List.append_cancel_right hd))

theorem ne_nil_of_getLast?_eq_some {α : Type} (l : List α) (c : α)
    (h : l.getLast? = some c) : l ≠ [] := by
  intro he
  subst he
  simp at h

theorem str_last_char_ne (a b x y : String) (cx cy : Char)
    (hx : x.data.getLast? = some cx) (hy : y.data.getLast? = some cy)
    (hc : cx ≠ cy) : a ++ x ≠ b ++ y := by
  intro he
  apply hc
  have hd := congrArg (fun s => s.data.getLast?) he
  simp only [String.data_append] at hd
  rw [List.getLast?_append_of_ne_nil _ (ne_nil_of_getLast?_eq_some _ _ hx),
    List.getLast?_append_of_ne_nil _ (ne_nil_of_getLast?_eq_some _ _ hy),
    hx, hy] at hd
  exact Option.some.inj hd

theorem str_first_char_ne (p q a b x y : String) (cp cq : Char)
    (lp lq : List Char) (hp : p.data = cp :: lp) (hq : q.data = cq :: lq)
    (hc : cp ≠ cq) : p ++ a ++ x ≠ q ++ b ++ y := by
  intro he
  apply hc
  have hd := congrArg (fun s => s.data.head?) he
  simp only [String.data_append] at hd
  rw [hp, hq] at hd
  simpa using hd

/-! ### Per-file helper definitions and loop equations -/

def vlanLine (name : String) (v : Vlan) : String :=
  "VLAN=" ++ vlanName name v ++ "\n"

def vlanLines (name : String) : List Vlan → String
  | [] => ""
  | v :: rest => vlanLine name v ++ vlanLines name rest

def vlanNetdevKey (name : String) (v : Vlan) : String :=
  "20-" ++ vlanName name v ++ ".netdev"

def vlanNetdevContent (name : String) (v : Vlan) : String :=
  "[NetDev]\nName=" ++ vlanName name v ++ "\nKind=vlan\n\n[VLAN]\nId=" ++
    toString v.id ++ "\n"

def vlanNetworkKey (name : String) (v : Vlan) : String :=
  "20-" ++ vlanName name v ++ ".network"

def vlanNetworkContent (name : String) (v : Vlan) : String :=
  "[Match]\nName=" ++ vlanName name v ++ "\n\n" ++ basic_network_block v.cfg

def linkKey (name : String) : String := "10-" ++ name ++ ".link"

def linkFileContent (mac name : String) : String :=
  ("[Match]\nMACAddress=" ++ mac ++ "\nDriver=!802.1Q*") ++ "\n\n" ++
    ("[Link]\nName=" ++ name)

def networkKey (name : String) : String := "10-" ++ name ++ ".network"

def networkFileContent (name network_block : String) : String :=
  ("[Match]\nName=" ++ name) ++ "\n\n" ++ network_block

def bridgeNetdevKey (name : String) : String := "30-" ++ name ++ ".netdev"

def bridgeNetdevContent (name : String) : String :=
  "[NetDev]\nName=" ++ name ++ "\nKind=bridge\n"

def bridgeNetworkKey (name : String) : String := "30-" ++ name ++ ".network"

def bridgeNetworkContent (name : String) (address : Option String) : String :=
  "[Match]\nName=" ++ name ++ "\n\n[Network]\nAddress=" ++
    pyFormatOptStr address ++ "\n"

/-- The trailing `if network["type"] == "bridge"` part of the loop body. -/
def bridgePart (network : Network) (files : Dict) : Dict :=
  if network.type = "bridge" then
    dinsert (dinsert files (bridgeNetdevKey network.name)
        (bridgeNetdevContent network.name))
      (bridgeNetworkKey network.name)
      (bridgeNetworkContent network.name network.cfg.address)
  else files

theorem processVlans_nil (name nb : String) (files : Dict) :
    processVlans name [] nb files = (nb, files) := rfl

theorem processVlans_cons (name nb : String) (files : Dict) (v : Vlan)
    (vs : List Vlan) :
    processVlans name (v :: vs) nb files =
      processVlans name vs (nb ++ "VLAN=" ++ vlanName name v ++ "\n")
        (dinsert
          (dinsert files (vlanNetdevKey name v) (vlanNetdevContent name v))
          (vlanNetworkKey name v) (vlanNetworkContent name v)) := rfl

theorem processNetwork_none (files : Dict) (n : Network) (hm : n.mac = none) :
    processNetwork files n = bridgePart n files := by
  unfold processNetwork bridgePart
  rw [hm]
  rfl

theorem processNetwork_some_none (files : Dict) (n : Network) (mac : String)
    (hm : n.mac = some mac) (hv : n.vlan = none) :
    processNetwork files n =
      bridgePart n
        (dinsert (dinsert files (linkKey n.name) (linkFileContent mac n.name))
          (networkKey n.name)
          (networkFileContent n.name (basic_network_block n.cfg))) := by
  unfold processNetwork bridgePart
  rw [hm, hv]
  rfl

theorem processNetwork_some_some (files : Dict) (n : Network) (mac : String)
    (vlans : List Vlan) (hm : n.mac = some mac) (hv : n.vlan = some vlans) :
    processNetwork files n =
      bridgePart n
        (dinsert
          (dinsert (processVlans n.name vlans (basic_network_block n.cfg) files).2
            (linkKey n.name) (linkFileContent mac n.name))
          (networkKey n.name)
          (networkFileContent n.name
            (processVlans n.name vlans (basic_network_block n.cfg) files).1)) := by
  unfold processNetwork bridgePart
  rw [hm, hv]
  rfl

theorem processVlans_fst (name : String) (vs : List Vlan) (nb : String)
    (files : Dict) :
    (processVlans name vs nb files).1 = nb ++ vlanLines name vs := by
  induction vs generalizing nb files with
  | nil =>
    rw [processVlans_nil, vlanLines, String.append_empty]
  | cons v rest ih =>
    rw [processVlans_cons, ih, vlanLines, vlanLine]
    simp [String.append_assoc]

theorem processVlans_snd_lookup_other (name : String) (vs : List Vlan)
    (nb : String) (files : Dict) (k : String)
    (h : ∀ v ∈ vs, k ≠ vlanNetdevKey name v ∧ k ≠ vlanNetworkKey name v) :
    lookup (processVlans name vs nb files).2 k = lookup files k := by
  induction vs generalizing nb files with
  | nil => rw [processVlans_nil]
  | cons v rest ih =>
    rw [processVlans_cons,
      ih _ _ (fun v' hv' => h v' (List.mem_cons_of_mem _ hv')),
      lookup_dinsert_ne _ _ _ _ (h v (List.mem_cons_self v rest)).2,
      lookup_dinsert_ne _ _ _ _ (h v (List.mem_cons_self v rest)).1]

theorem processVlans_snd_nodup (name : String) (vs : List Vlan) (nb : String)
    (files : Dict) (h : (keys files).Nodup) :
    (keys (processVlans name vs nb files).2).Nodup := by
  induction vs generalizing nb files with
  | nil => rw [processVlans_nil]; exact h
  | cons v rest ih =>
    rw [processVlans_cons]
    exact ih _ _ (nodup_keys_dinsert _ _ _ (nodup_keys_dinsert _ _ _ h))

theorem mem_processVlans_snd (name : String) (vs : List Vlan) (nb : String)
    (files : Dict) (kv : String × String)
    (h : kv ∈ (processVlans name vs nb files).2) :
    (∃ v ∈ vs, kv = (vlanNetdevKey name v, vlanNetdevContent name v) ∨
      kv = (vlanNetworkKey name v, vlanNetworkContent name v)) ∨ kv ∈ files := by
  induction vs generalizing nb files with
  | nil =>
    rw [processVlans_nil] at h
    exact Or.inr h
  | cons v rest ih =>
    rw [processVlans_cons] at h
    rcases ih _ _ h with h' | h'
    · rcases h' with ⟨v', hv', hor⟩
      exact Or.inl ⟨v', List.mem_cons_of_mem _ hv', hor⟩
    · rcases mem_dinsert _ _ _ _ h' with h'' | h''
      · exact Or.inl ⟨v, List.mem_cons_self v rest, Or.inr h''⟩
      · rcases mem_dinsert _ _ _ _ h'' with h3 | h3
        · exact Or.inl ⟨v, List.mem_cons_self v rest, Or.inl h3⟩
        · exact Or.inr h3

theorem vlan_key_ne_of_name_ne (name : String) (v v' : Vlan)
    (h : vlanName name v ≠ vlanName name v') :
    vlanNetdevKey name v ≠ vlanNetdevKey name v' ∧
    vlanNetdevKey name v ≠ vlanNetworkKey name v' ∧
    vlanNetworkKey name v ≠ vlanNetdevKey name v' ∧
    vlanNetworkKey name v ≠ vlanNetworkKey name v' := by
  refine ⟨str_mid_ne _ _ _ _ h, ?_, ?_, str_mid_ne _ _ _ _ h⟩
  · exact str_last_char_ne _ _ _ _ 'v' 'k' (by decide) (by decide) (by decide)
  · exact str_last_char_ne _ _ _ _ 'k' 'v' (by decide) (by decide) (by decide)

theorem processVlans_snd_lookup_mem (name : String) (vs : List Vlan)
    (nb : String) (files : Dict) (v : Vlan)
    (hnd : (vs.map (vlanName name)).Nodup) (hv : v ∈ vs) :
    lookup (processVlans name vs nb files).2 (vlanNetdevKey name v) =
        some (vlanNetdevContent name v) ∧
      lookup (processVlans name vs nb files).2 (vlanNetworkKey name v) =
        some (vlanNetworkContent name v) := by
  induction vs generalizing nb files with
  | nil => simp at hv
  | cons v0 rest ih =>
    have hnd0 : vlanName name v0 ∉ rest.map (vlanName name) :=
      (List.nodup_cons.mp hnd).1
    have hndr : (rest.map (vlanName name)).Nodup := (List.nodup_cons.mp hnd).2
    rw [processVlans_cons]
    rcases List.mem_cons.mp hv with he | hm
    · subst he
      have hother : ∀ v' ∈ rest,
          (vlanName name v ≠ vlanName name v') := by
        intro v' hv' he'
        exact hnd0 (he' ▸ List.mem_map_of_mem (vlanName name) hv')
      have h1 : ∀ v' ∈ rest,
          vlanNetdevKey name v ≠ vlanNetdevKey name v' ∧
          vlanNetdevKey name v ≠ vlanNetworkKey name v' := by
        intro v' hv'
        have := vlan_key_ne_of_name_ne name v v' (hother v' hv')
        exact ⟨this.1, this.2.1⟩
      have h2 : ∀ v' ∈ rest,
          vlanNetworkKey name v ≠ vlanNetdevKey name v' ∧
          vlanNetworkKey name v ≠ vlanNetworkKey name v' := by
        intro v' hv'
        have := vlan_key_ne_of_name_ne name v v' (hother v' hv')
        exact ⟨this.2.2.1, this.2.2.2⟩
      have hdk : vlanNetdevKey name v ≠ vlanNetworkKey name v :=
        str_last_char_ne _ _ _ _ 'v' 'k' (by decide) (by decide) (by decide)
      constructor
      · rw [processVlans_snd_lookup_other _ _ _ _ _ h1,
          lookup_dinsert_ne _ _ _ _ hdk, lookup_dinsert_self]
      · rw [processVlans_snd_lookup_other _ _ _ _ _ h2, lookup_dinsert_self]
    · exact ih _ _ hndr hm

theorem generate_config_append (networks : List Network) (n : Network) :
    generate_config (networks ++ [n]) =
      processNetwork (generate_config networks) n := by
  unfold generate_config
  rw [List.foldl_append]
  rfl

theorem nodup_keys_bridgePart (n : Network) (files : Dict)
    (h : (keys files).Nodup) : (keys (bridgePart n files)).Nodup := by
  unfold bridgePart
  by_cases ht : n.type = "bridge"
  · rw [if_pos ht]
    exact nodup_keys_dinsert _ _ _ (nodup_keys_dinsert _ _ _ h)
  · rw [if_neg ht]
    exact h

theorem nodup_keys_processNetwork (files : Dict) (n : Network)
    (h : (keys files).Nodup) : (keys (processNetwork files n)).Nodup := by
  cases hm : n.mac with
  | none =>
    rw [processNetwork_none _ _ hm]
    exact nodup_keys_bridgePart _ _ h
  | some mac =>
    cases hv : n.vlan with
    | none =>
      rw [processNetwork_some_none _ _ _ hm hv]
      exact nodup_keys_bridgePart _ _
        (nodup_keys_dinsert _ _ _ (nodup_keys_dinsert _ _ _ h))
    | some vlans =>
      rw [processNetwork_some_some _ _ _ _ hm hv]
      exact nodup_keys_bridgePart _ _
        (nodup_keys_dinsert _ _ _ (nodup_keys_dinsert _ _ _
          (processVlans_snd_nodup _ _ _ _ h)))

theorem nodup_keys_generate_config (networks : List Network) :
    (keys (generate_config networks)).Nodup := by
  suffices h : ∀ files : Dict, (keys files).Nodup →
      (keys (networks.foldl processNetwork files)).Nodup by
    exact h [] (by simp [keys])
  induction networks with
  | nil => intro files h; exact h
  | cons n rest ih =>
    intro files h
    exact ih _ (nodup_keys_processNetwork _ _ h)

/-! ### Reconciler lemmas -/

theorem lookup_eq_none_iff_not_mem_keys (d : Dict) (k : String) :
    lookup d k = none ↔ k ∉ keys d := by
  rw [mem_keys_iff_containsKey]
  unfold containsKey
  cases lookup d k <;> simp

theorem lookup_isSome_of_mem_keys (d : Dict) (k : String) (h : k ∈ keys d) :
    (lookup d k).isSome = true := by
  rw [mem_keys_iff_containsKey] at h
  exact h

theorem dictBeq_eq_true_iff (W C : Dict) (hW : (keys W).Nodup)
    (hC : (keys C).Nodup) :
    dictBeq W C = true ↔ ∀ k, lookup W k = lookup C k := by
  unfold dictBeq
  rw [Bool.and_eq_true, List.all_eq_true, List.all_eq_true]
  constructor
  · intro ⟨h1, h2⟩ k
    cases hk : lookup W k with
    | some w =>
      have h3 := h1 (k, w) (mem_of_lookup_eq_some _ _ _ hk)
      simp only [beq_iff_eq] at h3
      rw [h3]
    | none =>
      cases hk' : lookup C k with
      | some c =>
        have h3 := h2 (k, c) (mem_of_lookup_eq_some _ _ _ hk')
        simp only [beq_iff_eq] at h3
        rw [hk] at h3
        exact absurd h3 (by simp)
      | none => rfl
  · intro h
    constructor
    · intro kv hkv
      have : lookup W kv.1 = some kv.2 := by
        cases kv
        exact lookup_of_mem_nodup _ _ _ hW hkv
      simp [← h kv.1, this]
    · intro kv hkv
      have : lookup C kv.1 = some kv.2 := by
        cases kv
        exact lookup_of_mem_nodup _ _ _ hC hkv
      simp [h kv.1, this]

/-- C1, sources: `run_module` lines 338–348.
For every desired mapping `W` and current mapping `C` (modelled as Python
dicts, so with duplicate-free keys), the reconciliation step computes
`to_remove` as exactly the keys present in `C` but absent from `W`,
`to_write` as exactly the keys of `W` whose value differs from the one in
`C` (or that are absent from `C`), and the file-content part of `changed`
is true iff `to_remove` or `to_write` is non-empty. -/
theorem c1_reconcile_delta (W C : Dict) (hW : (keys W).Nodup)
    (hC : (keys C).Nodup) :
    (∀ k, k ∈ (reconcile W C).to_remove ↔ (k ∈ keys C ∧ k ∉ keys W)) ∧
    (∀ k, k ∈ (reconcile W C).to_write ↔
      (k ∈ keys W ∧ lookup W k ≠ lookup C k)) ∧
    ((reconcile W C).changed = true ↔
      ((reconcile W C).to_remove ≠ [] ∨ (reconcile W C).to_write ≠ [])) := by
  have hrem : ∀ k, k ∈ (reconcile W C).to_remove ↔
      (k ∈ keys C ∧ k ∉ keys W) := by
    intro k
    show k ∈ (keys C).filter _ ↔ _
    rw [List.mem_filter]
    constructor
    · intro ⟨h1, h2⟩
      refine ⟨h1, fun hmem => ?_⟩
      rw [mem_keys_iff_containsKey] at hmem
      simp [hmem] at h2
    · intro ⟨h1, h2⟩
      refine ⟨h1, ?_⟩
      rw [mem_keys_iff_containsKey] at h2
      simp only [Bool.not_eq_true'] at *
      cases hcc : containsKey W k
      · rfl
      · exact absurd hcc h2
  have hwr : ∀ k, k ∈ (reconcile W C).to_write ↔
      (k ∈ keys W ∧ lookup W k ≠ lookup C k) := by
    intro k
    show k ∈ (keys W).filter _ ↔ _
    rw [List.mem_filter]
    constructor
    · intro ⟨h1, h2⟩
      refine ⟨h1, fun heq => ?_⟩
      have hs := lookup_isSome_of_mem_keys _ _ h1
      have hcc : containsKey C k = true := by
        unfold containsKey
        rw [← heq]
        exact hs
      simp [hcc, heq] at h2
    · intro ⟨h1, h2⟩
      refine ⟨h1, ?_⟩
      simp only [Bool.not_eq_true', Bool.and_eq_false_iff]
      by_cases hcc : containsKey C k = true
      · right
        simpa using h2
      · left
        simpa using hcc
  refine ⟨hrem, hwr, ?_⟩
  have key : dictBeq W C = true ↔
      ((reconcile W C).to_remove = [] ∧ (reconcile W C).to_write = []) := by
    rw [dictBeq_eq_true_iff W C hW hC]
    constructor
    · intro h
      constructor
      · rw [List.eq_nil_iff_forall_not_mem]
        intro k hk
        rw [hrem k] at hk
        have h2 := hk.2
        rw [← lookup_eq_none_iff_not_mem_keys] at h2
        have h1 := lookup_isSome_of_mem_keys _ _ hk.1
        rw [← h k, h2] at h1
        simp at h1
      · rw [List.eq_nil_iff_forall_not_mem]
        intro k hk
        rw [hwr k] at hk
        exact hk.2 (h k)
    · intro ⟨h1, h2⟩ k
      rw [List.eq_nil_iff_forall_not_mem] at h1 h2
      by_cases hkW : k ∈ keys W
      · by_contra hne
        exact h2 k ((hwr k).mpr ⟨hkW, hne⟩)
      · have hWn : lookup W k = none :=
          (lookup_eq_none_iff_not_mem_keys W k).mpr hkW
        by_cases hkC : k ∈ keys C
        · exact absurd ((hrem k).mpr ⟨hkC, hkW⟩) (h1 k)
        · rw [hWn, (lookup_eq_none_iff_not_mem_keys C k).mpr hkC]
  show (!(dictBeq W C)) = true ↔ _
  rw [Bool.not_eq_true']
  constructor
  · intro hfalse
    by_contra hcon
    push_neg at hcon
    have hb := key.mpr ⟨hcon.1, hcon.2⟩
    rw [hb] at hfalse
    exact Bool.noConfusion hfalse
  · intro hor
    cases hb : dictBeq W C with
    | false => rfl
    | true =>
      rcases key.mp hb with ⟨h1, h2⟩
      rcases hor with h | h
      · exact absurd h1 h
      · exact absurd h2 h

/-- Witness for C1 at concrete mappings. -/
theorem c1_reconcile_delta_witness :
    (∀ k, k ∈ (reconcile [("a", "1")] [("b", "2")]).to_remove ↔
      (k ∈ keys [("b", "2")] ∧ k ∉ keys [("a", "1")])) ∧
    (∀ k, k ∈ (reconcile [("a", "1")] [("b", "2")]).to_write ↔
      (k ∈ keys [("a", "1")] ∧
        lookup [("a", "1")] k ≠ lookup [("b", "2")] k)) ∧
    ((reconcile [("a", "1")] [("b", "2")]).changed = true ↔
      ((reconcile [("a", "1")] [("b", "2")]).to_remove ≠ [] ∨
        (reconcile [("a", "1")] [("b", "2")]).to_write ≠ [])) :=
  c1_reconcile_delta [("a", "1")] [("b", "2")] (by decide) (by decide)

theorem dictBeq_self (d : Dict) (h : (keys d).Nodup) : dictBeq d d = true := by
  unfold dictBeq
  rw [Bool.and_eq_true, List.all_eq_true]
  constructor <;>
  · intro kv hkv
    have : lookup d kv.1 = some kv.2 := by
      cases kv
      exact lookup_of_mem_nodup _ _ _ h hkv
    simp [this]

/-- C2, sources: `run_module` lines 338–348.
Reconciling the generated mapping against itself is a no-op: for every
descriptor list, with desired = current = `generate_config(D)`, the
content part of `changed` is false and both `to_write` and `to_remove`
are empty. -/
theorem c2_reconcile_idempotent (networks : List Network) :
    (reconcile (generate_config networks) (generate_config networks)).changed
        = false ∧
      (reconcile (generate_config networks)
        (generate_config networks)).to_write = [] ∧
      (reconcile (generate_config networks)
        (generate_config networks)).to_remove = [] := by
  have hnd := nodup_keys_generate_config networks
  refine ⟨?_, ?_, ?_⟩
  · show (!(dictBeq _ _)) = false
    rw [dictBeq_self _ hnd]
    rfl
  · show List.filter _ _ = []
    rw [List.filter_eq_nil_iff]
    intro k hk
    have hs := lookup_isSome_of_mem_keys _ _ hk
    simp [containsKey, hs]
  · show List.filter _ _ = []
    rw [List.filter_eq_nil_iff]
    intro k hk
    have hs := lookup_isSome_of_mem_keys _ _ hk
    simp [containsKey, hs]

/-! ### The basic network block: spec-shaped decomposition -/

/-- One `DNS=` line per entry, in list order. -/
def dnsLines : List String → String
  | [] => ""
  | s :: rest => "DNS=" ++ s ++ "\n" ++ dnsLines rest

theorem foldl_dns (l : List String) (acc : String) :
    l.foldl (fun acc s => acc ++ "DNS=" ++ s ++ "\n") acc = acc ++ dnsLines l := by
  induction l generalizing acc with
  | nil => rw [List.foldl_nil, dnsLines, String.append_empty]
  | cons s rest ih =>
    rw [List.foldl_cons, ih, dnsLines]
    simp [String.append_assoc]

/-- Written from the spec's words for the basic network block rule: the
block header followed, in this fixed order, by `Address=` (if set),
`Bridge=` (if set), `DHCP=ipv4` (if the dhcp flag is set, regardless of
its truthiness), one `DNS=` line per entry, and `Gateway=` (if set). -/
def specBasicNetworkBlock (cfg : NetCfg) : String :=
  "[Network]\n"
  ++ (match cfg.address with | some a => "Address=" ++ a ++ "\n" | none => "")
  ++ (match cfg.bridge with | some b => "Bridge=" ++ b ++ "\n" | none => "")
  ++ (match cfg.dhcp with | some _ => "DHCP=ipv4\n" | none => "")
  ++ dnsLines (cfg.dns.getD [])
  ++ (match cfg.gateway with | some g => "Gateway=" ++ g ++ "\n" | none => "")

theorem basic_network_block_eq_spec (cfg : NetCfg) :
    basic_network_block cfg = specBasicNetworkBlock cfg := by
  rcases cfg with ⟨a, br, dh, dn, gw⟩
  cases a <;> cases br <;> cases dh <;> cases dn <;> cases gw <;>
    simp only [basic_network_block, specBasicNetworkBlock, Option.getD_some,
      Option.getD_none, dnsLines] <;>
    (try rw [foldl_dns]) <;>
    refine String.ext ?_ <;>
    simp [String.data_append, List.append_assoc,
      show ("" : String).data = [] from rfl]

/-- C4, sources: `basic_network_block` lines 142–159.
The basic network block starts with the `[Network]` header and emits
fields in exactly the fixed order Address, Bridge, DHCP, DNS (one line
per entry, in list order), Gateway; on the concrete Scenario B input the
block body is exactly the expected four lines. -/
theorem c4_basic_network_block_order :
    (∀ cfg : NetCfg, basic_network_block cfg = specBasicNetworkBlock cfg) ∧
    basic_network_block
        ⟨some "192.168.1.2/24", none, none, some ["1.1.1.1", "8.8.8.8"],
          some "192.168.1.1"⟩ =
      "[Network]\n" ++
        "Address=192.168.1.2/24\nDNS=1.1.1.1\nDNS=8.8.8.8\nGateway=192.168.1.1\n" := by
  refine ⟨basic_network_block_eq_spec, ?_⟩
  decide

/-- Everything the basic network block emits before the DHCP field. -/
def preDhcp (cfg : NetCfg) : String :=
  "[Network]\n"
  ++ (match cfg.address with | some a => "Address=" ++ a ++ "\n" | none => "")
  ++ (match cfg.bridge with | some b => "Bridge=" ++ b ++ "\n" | none => "")

/-- Everything the basic network block emits after the DHCP field. -/
def postDhcp (cfg : NetCfg) : String :=
  dnsLines (cfg.dns.getD [])
  ++ (match cfg.gateway with | some g => "Gateway=" ++ g ++ "\n" | none => "")

/-- C5, sources: `basic_network_block` lines 151–152.
The `DHCP=ipv4` line is emitted iff the `dhcp` field is set at all
(`is not None`), independently of its boolean value: the block always
decomposes as the pre-DHCP part, then `DHCP=ipv4` exactly when the field
is set, then the post-DHCP part; concretely, `dhcp = some false` still
yields the line and `dhcp = none` yields none. -/
theorem c5_dhcp_line_iff_field_set :
    (∀ cfg : NetCfg,
      basic_network_block cfg =
        preDhcp cfg ++ (if cfg.dhcp.isSome then "DHCP=ipv4\n" else "") ++
          postDhcp cfg) ∧
    basic_network_block ⟨none, none, some false, none, none⟩ =
      "[Network]\nDHCP=ipv4\n" ∧
    basic_network_block ⟨none, none, none, none, none⟩ = "[Network]\n" := by
  refine ⟨?_, by decide, by decide⟩
  intro cfg
  rw [basic_network_block_eq_spec]
  rcases cfg with ⟨a, br, dh, dn, gw⟩
  cases dh <;>
    simp [specBasicNetworkBlock, preDhcp, postDhcp, String.append_assoc,
      String.append_empty, String.empty_append]

/-- C9, sources: `module_args` lines 281–283 and `generate_config` lines
167–169.  Contrary to the claim (and to the module's own DOCUMENTATION,
which says mac is "Required for interfaces of type net"), a non-bridge
interface without `mac` is not rejected: the argument spec does not mark
`mac` as required, and `generate_config` silently emits no files at all
for such an interface instead of failing. -/
theorem c9_missing_mac_not_rejected :
    generate_config
        [{ name := "eth0", mac := none, type := "net", vlan := none,
           cfg := ⟨none, none, none, none, none⟩ }] = [] ∧
    mac_arg_spec.required = false :=
  ⟨rfl, rfl⟩

/-! ### Filename inequality lemmas -/

theorem key10_ne_key30 (a b x y : String) :
    "10-" ++ a ++ x ≠ "30-" ++ b ++ y :=
  str_first_char_ne "10-" "30-" a b x y '1' '3' ['0', '-'] ['0', '-']
    rfl rfl (by decide)

theorem key10_ne_key20 (a b x y : String) :
    "10-" ++ a ++ x ≠ "20-" ++ b ++ y :=
  str_first_char_ne "10-" "20-" a b x y '1' '2' ['0', '-'] ['0', '-']
    rfl rfl (by decide)

theorem key20_ne_key30 (a b x y : String) :
    "20-" ++ a ++ x ≠ "30-" ++ b ++ y :=
  str_first_char_ne "20-" "30-" a b x y '2' '3' ['0', '-'] ['0', '-']
    rfl rfl (by decide)

theorem linkKey_ne_networkKey (name : String) :
    linkKey name ≠ networkKey name :=
  str_append_left_ne ("10-" ++ name) ".link" ".network" (by decide)

theorem bridge_keys_ne (name : String) :
    bridgeNetdevKey name ≠ bridgeNetworkKey name :=
  str_append_left_ne ("30-" ++ name) ".netdev" ".network" (by decide)

theorem linkKey_ne_bridgeNetdevKey (a b : String) :
    linkKey a ≠ bridgeNetdevKey b := key10_ne_key30 a b ".link" ".netdev"

theorem linkKey_ne_bridgeNetworkKey (a b : String) :
    linkKey a ≠ bridgeNetworkKey b := key10_ne_key30 a b ".link" ".network"

theorem networkKey_ne_bridgeNetdevKey (a b : String) :
    networkKey a ≠ bridgeNetdevKey b := key10_ne_key30 a b ".network" ".netdev"

theorem networkKey_ne_bridgeNetworkKey (a b : String) :
    networkKey a ≠ bridgeNetworkKey b := key10_ne_key30 a b ".network" ".network"

theorem lookup_bridgePart_other (n : Network) (files : Dict) (k : String)
    (h1 : k ≠ bridgeNetdevKey n.name) (h2 : k ≠ bridgeNetworkKey n.name) :
    lookup (bridgePart n files) k = lookup files k := by
  unfold bridgePart
  by_cases ht : n.type = "bridge"
  · rw [if_pos ht, lookup_dinsert_ne _ _ _ _ h2, lookup_dinsert_ne _ _ _ _ h1]
  · rw [if_neg ht]

/-- C10, sources: `generate_config` lines 169–201.
The `mac` branch and the bridge branch are independent `if`s, not
mutually exclusive: a descriptor with both `mac` set and `type = bridge`
gets all four of `10-<name>.link`, `10-<name>.network`,
`30-<name>.netdev` and `30-<name>.network` in the output mapping. -/
theorem c10_mac_and_bridge_independent (ns : List Network) (d : Network)
    (mac : String) (hm : d.mac = some mac) (ht : d.type = "bridge") :
    containsKey (generate_config (ns ++ [d])) (linkKey d.name) = true ∧
    containsKey (generate_config (ns ++ [d])) (networkKey d.name) = true ∧
    containsKey (generate_config (ns ++ [d])) (bridgeNetdevKey d.name) = true ∧
    containsKey (generate_config (ns ++ [d])) (bridgeNetworkKey d.name)
      = true := by
  rw [generate_config_append]
  have hbp : ∀ files : Dict, bridgePart d files =
      dinsert
        (dinsert files (bridgeNetdevKey d.name) (bridgeNetdevContent d.name))
        (bridgeNetworkKey d.name)
        (bridgeNetworkContent d.name d.cfg.address) := by
    intro files
    unfold bridgePart
    rw [if_pos ht]
  have main : ∀ (files : Dict) (lc nc : String),
      containsKey (bridgePart d (dinsert (dinsert files (linkKey d.name) lc)
        (networkKey d.name) nc)) (linkKey d.name) = true ∧
      containsKey (bridgePart d (dinsert (dinsert files (linkKey d.name) lc)
        (networkKey d.name) nc)) (networkKey d.name) = true ∧
      containsKey (bridgePart d (dinsert (dinsert files (linkKey d.name) lc)
        (networkKey d.name) nc)) (bridgeNetdevKey d.name) = true ∧
      containsKey (bridgePart d (dinsert (dinsert files (linkKey d.name) lc)
        (networkKey d.name) nc)) (bridgeNetworkKey d.name) = true := by
    intro files lc nc
    refine ⟨?_, ?_, ?_, ?_⟩
    · unfold containsKey
      rw [lookup_bridgePart_other _ _ _ (linkKey_ne_bridgeNetdevKey _ _)
          (linkKey_ne_bridgeNetworkKey _ _),
        lookup_dinsert_ne _ _ _ _ (linkKey_ne_networkKey d.name),
        lookup_dinsert_self]
      rfl
    · unfold containsKey
      rw [lookup_bridgePart_other _ _ _ (networkKey_ne_bridgeNetdevKey _ _)
          (networkKey_ne_bridgeNetworkKey _ _),
        lookup_dinsert_self]
      rfl
    · unfold containsKey
      rw [hbp, lookup_dinsert_ne _ _ _ _ (bridge_keys_ne d.name),
        lookup_dinsert_self]
      rfl
    · unfold containsKey
      rw [hbp, lookup_dinsert_self]
      rfl
  cases hv : d.vlan with
  | none =>
    rw [processNetwork_some_none _ _ _ hm hv]
    exact main _ _ _
  | some vlans =>
    rw [processNetwork_some_some _ _ _ _ hm hv]
    exact main _ _ _

/-- A concrete descriptor with both `mac` set and `type = "bridge"`. -/
def macBridge : Network :=
  { name := "br7", mac := some "00:11:22:33:44:55", type := "bridge",
    vlan := none, cfg := ⟨none, none, none, none, none⟩ }

/-- Witness for C10 at a concrete descriptor. -/
theorem c10_mac_and_bridge_independent_witness :
    containsKey (generate_config ([] ++ [macBridge])) (linkKey macBridge.name)
        = true ∧
      containsKey (generate_config ([] ++ [macBridge]))
        (networkKey macBridge.name) = true ∧
      containsKey (generate_config ([] ++ [macBridge]))
        (bridgeNetdevKey macBridge.name) = true ∧
      containsKey (generate_config ([] ++ [macBridge]))
        (bridgeNetworkKey macBridge.name) = true :=
  c10_mac_and_bridge_independent [] macBridge "00:11:22:33:44:55" rfl rfl

/-! ### C6: bridge interface without an address -/

/-- A bridge descriptor whose `address` is unset. -/
def brNoAddr : Network :=
  { name := "br0", mac := none, type := "bridge", vlan := none,
    cfg := ⟨none, none, none, none, none⟩ }

/-- C6 counterexample, sources: `generate_config` lines 196–201.
For a bridge without `address`, the generated `30-br0.network` file does
not contain the text `Address=\n`: Python's `str.format` renders the
`None` sentinel as the four characters `None`, so the file contains
`Address=None\n` instead. -/
theorem c6_counterexample :
    lookup (generate_config [brNoAddr]) "30-br0.network" =
        some "[Match]\nName=br0\n\n[Network]\nAddress=None\n" ∧
      ¬ ("Address=\n".data <:+:
        "[Match]\nName=br0\n\n[Network]\nAddress=None\n".data) := by
  refine ⟨rfl, ?_⟩
  decide

theorem addr_none_concat (s : String) :
    s ++ "\n\n[Network]\nAddress=" ++ "None" ++ "\n" =
      s ++ "\n\n[Network]\nAddress=None\n" := by
  apply String.ext
  simp only [String.data_append, List.append_assoc]
  congr 1

/-- C6 amended, sources: `generate_config` lines 196–201.
A bridge-kind descriptor with `address` unset still gets its
`30-<name>.network` file, with the address line rendered as
`Address=None\n` (the string form of the unset sentinel), not as an
empty `Address=` line. -/
theorem c6_bridge_address_none (d : Network) (ht : d.type = "bridge")
    (ha : d.cfg.address = none) :
    lookup (generate_config [d]) (bridgeNetworkKey d.name) =
      some ("[Match]\nName=" ++ d.name ++ "\n\n[Network]\nAddress=None\n") := by
  have hbp : ∀ files : Dict,
      lookup (bridgePart d files) (bridgeNetworkKey d.name) =
        some (bridgeNetworkContent d.name d.cfg.address) := by
    intro files
    unfold bridgePart
    rw [if_pos ht, lookup_dinsert_self]
  have hcontent : bridgeNetworkContent d.name d.cfg.address =
      "[Match]\nName=" ++ d.name ++ "\n\n[Network]\nAddress=None\n" := by
    unfold bridgeNetworkContent
    rw [ha]
    show "[Match]\nName=" ++ d.name ++ "\n\n[Network]\nAddress=" ++ "None"
        ++ "\n" = _
    exact addr_none_concat ("[Match]\nName=" ++ d.name)
  show lookup (processNetwork [] d) _ = _
  cases hm : d.mac with
  | none =>
    rw [processNetwork_none _ _ hm, hbp, hcontent]
  | some mac =>
    cases hv : d.vlan with
    | none =>
      rw [processNetwork_some_none _ _ _ hm hv, hbp, hcontent]
    | some vlans =>
      rw [processNetwork_some_some _ _ _ _ hm hv, hbp, hcontent]

/-- Witness for C6 amended at the concrete bridge descriptor. -/
theorem c6_bridge_address_none_witness :
    lookup (generate_config [brNoAddr]) (bridgeNetworkKey brNoAddr.name) =
      some ("[Match]\nName=" ++ brNoAddr.name ++
        "\n\n[Network]\nAddress=None\n") :=
  c6_bridge_address_none brNoAddr rfl rfl

/-! ### C7: the directory snapshot reader -/

theorem lookup_append_dict (d e : Dict) (k : String) :
    lookup (d ++ e) k =
      match lookup d k with
      | some v => some v
      | none => lookup e k := by
  induction d with
  | nil => rw [List.nil_append]; rfl
  | cons kv rest ih =>
    by_cases hk : kv.1 = k
    · rw [List.cons_append, lookup, if_pos hk, lookup, if_pos hk]
    · rw [List.cons_append, lookup, if_neg hk, lookup, if_neg hk, ih]

theorem containsKey_append_single (d : Dict) (k' k v : String)
    (h1 : containsKey d k' = false) (h2 : k' ≠ k) :
    containsKey (d ++ [(k, v)]) k' = false := by
  unfold containsKey at *
  rw [lookup_append_dict]
  cases hd : lookup d k' with
  | some w => rw [hd] at h1; simp at h1
  | none =>
    show (lookup [(k, v)] k').isSome = false
    rw [lookup, if_neg (fun he => h2 he.symm)]
    rfl

theorem dinsert_of_not_containsKey (d : Dict) (k v : String)
    (h : containsKey d k = false) : dinsert d k v = d ++ [(k, v)] := by
  induction d with
  | nil => rfl
  | cons kv rest ih =>
    by_cases hk : kv.1 = k
    · unfold containsKey at h
      rw [lookup, if_pos hk] at h
      simp at h
    · unfold containsKey at h
      rw [lookup, if_neg hk] at h
      rw [dinsert, if_neg hk, List.cons_append, ih h]

/-- C7 counterexample, sources: `read_config` lines 220–231.
`read_config` does not strip a trailing newline: for a file whose content
is `"x\n"` the returned mapping still holds `"x\n"`, not the stripped
`"x"` the claim predicts. -/
theorem c7_counterexample :
    read_config [("f", "x\n")] = [("f", "x\n")] ∧
      read_config [("f", "x\n")] ≠ [("f", "x")] := by
  refine ⟨rfl, ?_⟩
  decide

/-- C7 amended, sources: `read_config` lines 220–231.
The directory snapshot reader returns every file's content verbatim
(`file.read(-1)` reads the whole file and nothing is stripped), keyed by
the file's basename; in particular an empty directory yields the empty
mapping rather than an error. -/
theorem c7_read_verbatim (dir : List (String × String))
    (h : (dir.map (fun f => basename f.1)).Nodup) :
    read_config dir = dir.map (fun f => (basename f.1, f.2)) := by
  suffices haux : ∀ (l : List (String × String)) (acc : Dict),
      (∀ f ∈ l, containsKey acc (basename f.1) = false) →
      (l.map (fun f => basename f.1)).Nodup →
      l.foldl (fun files f => dinsert files (basename f.1) f.2) acc =
        acc ++ l.map (fun f => (basename f.1, f.2)) by
    have := haux dir [] (by intro f _; rfl) h
    simpa [read_config] using this
  intro l
  induction l with
  | nil =>
    intro acc _ _
    simp
  | cons f rest ih =>
    intro acc hacc hnd
    rw [List.foldl_cons, List.map_cons,
      dinsert_of_not_containsKey _ _ _ (hacc f (List.mem_cons_self f rest)),
      ih (acc ++ [(basename f.1, f.2)]) ?_ (List.nodup_cons.mp hnd).2]
    · rw [List.append_assoc, List.singleton_append]
    · intro g hg
      refine containsKey_append_single _ _ _ _
        (hacc g (List.mem_cons_of_mem _ hg)) ?_
      intro he
      have hgm : basename g.1 ∈ rest.map (fun f => basename f.1) :=
        List.mem_map_of_mem _ hg
      rw [he] at hgm
      exact (List.nodup_cons.mp hnd).1 hgm

/-- Witness for C7 amended at a one-file directory and the empty
directory. -/
theorem c7_read_verbatim_witness :
    read_config [("a.network", "x\n")] = [("a.network", "x\n")] ∧
      read_config [] = [] := by
  constructor
  · rw [c7_read_verbatim [("a.network", "x\n")] (by decide)]
    decide
  · exact c7_read_verbatim [] (by decide)

/-! ### C3: VLAN processing -/

theorem vlanNetdevKey_ne_bridgeNetdevKey (name : String) (v : Vlan)
    (b : String) : vlanNetdevKey name v ≠ bridgeNetdevKey b :=
  key20_ne_key30 (vlanName name v) b ".netdev" ".netdev"

theorem vlanNetdevKey_ne_bridgeNetworkKey (name : String) (v : Vlan)
    (b : String) : vlanNetdevKey name v ≠ bridgeNetworkKey b :=
  key20_ne_key30 (vlanName name v) b ".netdev" ".network"

theorem vlanNetworkKey_ne_bridgeNetdevKey (name : String) (v : Vlan)
    (b : String) : vlanNetworkKey name v ≠ bridgeNetdevKey b :=
  key20_ne_key30 (vlanName name v) b ".network" ".netdev"

theorem vlanNetworkKey_ne_bridgeNetworkKey (name : String) (v : Vlan)
    (b : String) : vlanNetworkKey name v ≠ bridgeNetworkKey b :=
  key20_ne_key30 (vlanName name v) b ".network" ".network"

theorem vlanNetdevKey_ne_networkKey (name : String) (v : Vlan)
    (b : String) : vlanNetdevKey name v ≠ networkKey b :=
  fun he => key10_ne_key20 b (vlanName name v) ".network" ".netdev" he.symm

theorem vlanNetdevKey_ne_linkKey (name : String) (v : Vlan)
    (b : String) : vlanNetdevKey name v ≠ linkKey b :=
  fun he => key10_ne_key20 b (vlanName name v) ".link" ".netdev" he.symm

theorem vlanNetworkKey_ne_networkKey (name : String) (v : Vlan)
    (b : String) : vlanNetworkKey name v ≠ networkKey b :=
  fun he => key10_ne_key20 b (vlanName name v) ".network" ".network" he.symm

theorem vlanNetworkKey_ne_linkKey (name : String) (v : Vlan)
    (b : String) : vlanNetworkKey name v ≠ linkKey b :=
  fun he => key10_ne_key20 b (vlanName name v) ".link" ".network" he.symm

/-- The Scenario E descriptor: one interface with two unnamed VLANs, ids 1
and 2, with distinct addresses. -/
def scenarioE : Network :=
  { name := "eth0", mac := some "00:11:22:33:44:55", type := "net",
    vlan := some
      [⟨1, none, ⟨some "192.168.1.2/24", none, none, none, none⟩⟩,
        ⟨2, none, ⟨some "192.168.2.2/24", none, none, none, none⟩⟩],
    cfg := ⟨none, none, none, none, none⟩ }

/-- C3, sources: `generate_config` lines 176–190.
For an interface with `mac` set and a (non-empty, collision-free) VLAN
list, VLANs are processed in list order: the parent's `10-<name>.network`
file is its match block plus the basic network block followed by one
`VLAN=<vname>` line per VLAN in declaration order (where `<vname>` is the
explicit name or `{parent}.{id}`), and each VLAN gets a
`20-<vname>.netdev` file (kind vlan, numeric id) and a `20-<vname>.network`
file (match-by-name block plus its own basic network block); on the
concrete Scenario E input, two VLANs yield exactly four additional files
and two ordered `VLAN=` lines. -/
theorem c3_vlan_processing (d : Network) (mac : String) (vs : List Vlan)
    (hm : d.mac = some mac) (hv : d.vlan = some vs) (_hne : vs ≠ [])
    (hnd : (vs.map (vlanName d.name)).Nodup) :
    lookup (generate_config [d]) (networkKey d.name) =
        some (networkFileContent d.name
          (basic_network_block d.cfg ++ vlanLines d.name vs)) ∧
      (∀ v ∈ vs,
        lookup (generate_config [d]) (vlanNetdevKey d.name v) =
            some (vlanNetdevContent d.name v) ∧
          lookup (generate_config [d]) (vlanNetworkKey d.name v) =
            some (vlanNetworkContent d.name v)) ∧
      (generate_config [scenarioE]).map Prod.fst =
        ["20-eth0.1.netdev", "20-eth0.1.network", "20-eth0.2.netdev",
          "20-eth0.2.network", "10-eth0.link", "10-eth0.network"] ∧
      lookup (generate_config [scenarioE]) "10-eth0.network" =
        some "[Match]\nName=eth0\n\n[Network]\nVLAN=eth0.1\nVLAN=eth0.2\n" := by
  have hgen : generate_config [d] = processNetwork [] d := rfl
  rw [hgen, processNetwork_some_some _ _ _ _ hm hv]
  refine ⟨?_, ?_, by decide, by decide⟩
  · rw [lookup_bridgePart_other _ _ _ (networkKey_ne_bridgeNetdevKey _ _)
        (networkKey_ne_bridgeNetworkKey _ _),
      lookup_dinsert_self, processVlans_fst]
  · intro v hvmem
    have h1 := processVlans_snd_lookup_mem d.name vs
      (basic_network_block d.cfg) [] v hnd hvmem
    constructor
    · rw [lookup_bridgePart_other _ _ _
          (vlanNetdevKey_ne_bridgeNetdevKey _ _ _)
          (vlanNetdevKey_ne_bridgeNetworkKey _ _ _),
        lookup_dinsert_ne _ _ _ _ (vlanNetdevKey_ne_networkKey _ _ _),
        lookup_dinsert_ne _ _ _ _ (vlanNetdevKey_ne_linkKey _ _ _)]
      exact h1.1
    · rw [lookup_bridgePart_other _ _ _
          (vlanNetworkKey_ne_bridgeNetdevKey _ _ _)
          (vlanNetworkKey_ne_bridgeNetworkKey _ _ _),
        lookup_dinsert_ne _ _ _ _ (vlanNetworkKey_ne_networkKey _ _ _),
        lookup_dinsert_ne _ _ _ _ (vlanNetworkKey_ne_linkKey _ _ _)]
      exact h1.2

/-- Witness for C3 at the Scenario E descriptor. -/
theorem c3_vlan_processing_witness :
    lookup (generate_config [scenarioE]) (networkKey scenarioE.name) =
        some (networkFileContent scenarioE.name
          (basic_network_block scenarioE.cfg ++
            vlanLines scenarioE.name ((scenarioE.vlan).getD []))) ∧
      (∀ v ∈ (scenarioE.vlan).getD [],
        lookup (generate_config [scenarioE])
            (vlanNetdevKey scenarioE.name v) =
            some (vlanNetdevContent scenarioE.name v) ∧
          lookup (generate_config [scenarioE])
            (vlanNetworkKey scenarioE.name v) =
            some (vlanNetworkContent scenarioE.name v)) := by
  have h := c3_vlan_processing scenarioE "00:11:22:33:44:55"
    ((scenarioE.vlan).getD []) rfl rfl (by decide) (by decide)
  exact ⟨h.1, h.2.1⟩

/-! ### C8: newline termination of generated files -/

theorem nl_append (a t : String) (h : t.data.getLast? = some '\n') :
    (a ++ t).data.getLast? = some '\n' := by
  rw [String.data_append,
    List.getLast?_append_of_ne_nil _ (ne_nil_of_getLast?_eq_some _ _ h)]
  exact h

theorem nl_append_opt (a t : String) (ha : a.data.getLast? = some '\n')
    (ht : t = "" ∨ t.data.getLast? = some '\n') :
    (a ++ t).data.getLast? = some '\n' := by
  rcases ht with rfl | h
  · rw [String.append_empty]
    exact ha
  · exact nl_append a t h

theorem dnsLines_nl (l : List String) :
    dnsLines l = "" ∨ (dnsLines l).data.getLast? = some '\n' := by
  induction l with
  | nil => exact Or.inl rfl
  | cons s rest ih =>
    right
    rw [dnsLines]
    exact nl_append_opt _ _ (nl_append _ "\n" (by decide)) ih

theorem basic_network_block_nl (cfg : NetCfg) :
    (basic_network_block cfg).data.getLast? = some '\n' := by
  rw [basic_network_block_eq_spec]
  unfold specBasicNetworkBlock
  apply nl_append_opt
  · apply nl_append_opt
    · apply nl_append_opt
      · apply nl_append_opt
        · apply nl_append_opt
          · decide
          · cases cfg.address with
            | none => exact Or.inl rfl
            | some a => exact Or.inr (nl_append _ "\n" (by decide))
        · cases cfg.bridge with
          | none => exact Or.inl rfl
          | some b => exact Or.inr (nl_append _ "\n" (by decide))
      · cases cfg.dhcp with
        | none => exact Or.inl rfl
        | some b =>
          exact Or.inr
            (show ("DHCP=ipv4\n" : String).data.getLast? = some '\n'
              by decide)
    · exact dnsLines_nl _
  · cases cfg.gateway with
    | none => exact Or.inl rfl
    | some g => exact Or.inr (nl_append _ "\n" (by decide))

theorem vlanLines_nl (name : String) (vs : List Vlan) :
    vlanLines name vs = "" ∨
      (vlanLines name vs).data.getLast? = some '\n' := by
  induction vs with
  | nil => exact Or.inl rfl
  | cons v rest ih =>
    right
    rw [vlanLines]
    exact nl_append_opt _ _ (nl_append _ "\n" (by decide)) ih

theorem link_suffix (name : String) : ".link".data <:+ (linkKey name).data := by
  rw [show (linkKey name).data = ("10-" ++ name).data ++ ".link".data from
    String.data_append _ _]
  exact List.suffix_append _ _

theorem mem_bridgePart (n : Network) (files : Dict) (kv : String × String)
    (h : kv ∈ bridgePart n files) :
    kv = (bridgeNetdevKey n.name, bridgeNetdevContent n.name) ∨
    kv = (bridgeNetworkKey n.name,
      bridgeNetworkContent n.name n.cfg.address) ∨
    kv ∈ files := by
  unfold bridgePart at h
  by_cases ht : n.type = "bridge"
  · rw [if_pos ht] at h
    rcases mem_dinsert _ _ _ _ h with h1 | h1
    · exact Or.inr (Or.inl h1)
    · rcases mem_dinsert _ _ _ _ h1 with h2 | h2
      · exact Or.inl h2
      · exact Or.inr (Or.inr h2)
  · rw [if_neg ht] at h
    exact Or.inr (Or.inr h)

theorem processNetwork_preserves_nl (files : Dict) (n : Network)
    (hP : ∀ k v, (k, v) ∈ files → ¬ (".link".data <:+ k.data) →
      v.data.getLast? = some '\n') :
    ∀ k v, (k, v) ∈ processNetwork files n → ¬ (".link".data <:+ k.data) →
      v.data.getLast? = some '\n' := by
  have hmain : ∀ (files2 : Dict) (lc nb : String),
      (∀ k v, (k, v) ∈ files2 → ¬ (".link".data <:+ k.data) →
        v.data.getLast? = some '\n') →
      nb.data.getLast? = some '\n' →
      ∀ k v, (k, v) ∈ dinsert (dinsert files2 (linkKey n.name) lc)
          (networkKey n.name) (networkFileContent n.name nb) →
        ¬ (".link".data <:+ k.data) → v.data.getLast? = some '\n' := by
    intro files2 lc nb hP2 hnb k v hm hk
    rcases mem_dinsert _ _ _ _ hm with h | h
    · rw [Prod.mk.injEq] at h
      rw [h.2]
      exact nl_append _ nb hnb
    · rcases mem_dinsert _ _ _ _ h with h2 | h2
      · rw [Prod.mk.injEq] at h2
        apply absurd _ hk
        rw [h2.1]
        exact link_suffix n.name
      · exact hP2 k v h2 hk
  have hbp : ∀ (files3 : Dict),
      (∀ k v, (k, v) ∈ files3 → ¬ (".link".data <:+ k.data) →
        v.data.getLast? = some '\n') →
      ∀ k v, (k, v) ∈ bridgePart n files3 →
        ¬ (".link".data <:+ k.data) → v.data.getLast? = some '\n' := by
    intro files3 hP3 k v hm hk
    rcases mem_bridgePart _ _ _ hm with h | h | h
    · rw [Prod.mk.injEq] at h
      rw [h.2]
      exact nl_append _ "\nKind=bridge\n" (by decide)
    · rw [Prod.mk.injEq] at h
      rw [h.2]
      exact nl_append _ "\n" (by decide)
    · exact hP3 k v h hk
  have hvl : ∀ (vs : List Vlan) (nb0 : String) (k v : String),
      (k, v) ∈ (processVlans n.name vs nb0 files).2 →
        ¬ (".link".data <:+ k.data) → v.data.getLast? = some '\n' := by
    intro vs nb0 k v hm hk
    rcases mem_processVlans_snd _ _ _ _ _ hm with ⟨vl, _, h | h⟩ | h
    · rw [Prod.mk.injEq] at h
      rw [h.2]
      exact nl_append _ "\n" (by decide)
    · rw [Prod.mk.injEq] at h
      rw [h.2]
      exact nl_append _ _ (basic_network_block_nl vl.cfg)
    · exact hP k v h hk
  intro k v hm hk
  cases hmac : n.mac with
  | none =>
    rw [processNetwork_none _ _ hmac] at hm
    exact hbp files hP k v hm hk
  | some mac =>
    cases hvlan : n.vlan with
    | none =>
      rw [processNetwork_some_none _ _ _ hmac hvlan] at hm
      refine hbp _ ?_ k v hm hk
      exact hmain files (linkFileContent mac n.name)
        (basic_network_block n.cfg) hP (basic_network_block_nl n.cfg)
    | some vs =>
      rw [processNetwork_some_some _ _ _ _ hmac hvlan] at hm
      refine hbp _ ?_ k v hm hk
      refine hmain _ (linkFileContent mac n.name) _
        (hvl vs (basic_network_block n.cfg)) ?_
      rw [processVlans_fst]
      exact nl_append_opt _ _ (basic_network_block_nl n.cfg)
        (vlanLines_nl n.name vs)

/-- A minimal physical interface with DHCP, as in the repo's own test. -/
def eth0dhcp : Network :=
  { name := "eth0", mac := some "00:11:22:33:44:55", type := "net",
    vlan := none, cfg := ⟨none, none, some true, none, none⟩ }

/-- C8 counterexample, sources: `generate_config` lines 192–195.
The generated `10-eth0.link` file is not newline-terminated: its content
ends with `Name=eth0`, exactly as the repo's own unit tests expect. -/
theorem c8_counterexample :
    lookup (generate_config [eth0dhcp]) "10-eth0.link" =
        some "[Match]\nMACAddress=00:11:22:33:44:55\nDriver=!802.1Q*\n\n[Link]\nName=eth0" ∧
      "[Match]\nMACAddress=00:11:22:33:44:55\nDriver=!802.1Q*\n\n[Link]\nName=eth0".data.getLast?
        ≠ some '\n' := by
  exact ⟨rfl, by decide⟩

/-- C8 amended, sources: `generate_config` lines 176–201.
Every generated `.network` and `.netdev` file is newline-terminated, but
the `10-<name>.link` files are not (they end with the `[Link]` block's
`Name=` line): every file whose name does not end in `.link` ends with
the newline character. -/
theorem c8_non_link_files_newline_terminated (networks : List Network)
    (k v : String) (hmem : (k, v) ∈ generate_config networks)
    (hk : ¬ (".link".data <:+ k.data)) :
    v.data.getLast? = some '\n' := by
  suffices haux : ∀ (ns : List Network) (files : Dict),
      (∀ k v, (k, v) ∈ files → ¬ (".link".data <:+ k.data) →
        v.data.getLast? = some '\n') →
      ∀ k v, (k, v) ∈ ns.foldl processNetwork files →
        ¬ (".link".data <:+ k.data) → v.data.getLast? = some '\n' by
    exact haux networks [] (by intro k v h _; simp at h) k v hmem hk
  intro ns
  induction ns with
  | nil =>
    intro files hP
    exact hP
  | cons n rest ih =>
    intro files hP
    exact ih (processNetwork files n) (processNetwork_preserves_nl files n hP)

/-- Witness for C8 amended: the generated bridge network file of the
concrete bridge descriptor ends with a newline. -/
theorem c8_non_link_files_newline_terminated_witness :
    "[Match]\nName=br0\n\n[Network]\nAddress=None\n".data.getLast?
      = some '\n' :=
  c8_non_link_files_newline_terminated [brNoAddr] "30-br0.network"
    "[Match]\nName=br0\n\n[Network]\nAddress=None\n" (by decide) (by decide)

end SystemdNetworkd
